import Mathlib

/-!
Verification of the `stripeutil` Go library against its specification.

The development shallowly embeds the parts of the library that the claims
refer to:

* the canonical parameter encoder (`Params.Encode`, `encodeToPairs`,
  `encodeSliceToPairs` from `stripe.go`),
* the subscription orchestrator (`Stripe.Subscribe`, `Stripe.Unsubscribe`
  from `stripe.go`, together with `Subscription.Valid`,
  `Subscription.Cancel`, `Customer.Update`, `PaymentMethod.Attach` and
  `PaymentMethod.Update` from the resource files),
* the in-memory `TestStore` and the PostgreSQL payment-method upsert
  `PSQL.putPaymentMethod` and event log `PSQL.LogEvent`,
* the bulk tax-rate loader `Taxes.Reload` from `tax.go`,
* the webhook dispatcher `HookHandler.HandlerFunc` from `hook.go`.

Remote HTTP calls are modelled as oracle values (`Except`-valued responses
supplied up front), store backends as explicit state passed through each
operation, and `time.Now()` as an explicit `now : Int` argument.  Effect
lists record which remote calls and store writes an operation performed.
-/

/-! ## Parameter encoder (`stripe.go`)

The Go encoder works on `Params = map[string]interface{}`.  A value of the
dynamic `interface{}` type is modelled by the inductive `Value`: a string,
an integer or boolean scalar, a nested `Params` mapping, a slice, or any
other Go value (`other`), carried together with its `fmt %v` rendering.
A Go map has no intrinsic entry order; it is modelled as an association
list, and iteration-order independence is expressed through permutations
of that list (`PsEquiv` below). -/

inductive Value where
  | str : String → Value
  | int : Int → Value
  | bool : Bool → Value
  | params : List (String × Value) → Value
  | slice : List Value → Value
  | other : String → Value

/-- Params is the parameter mapping passed in the body of Stripe requests. -/
def Params := List (String × Value)

/-- Go compares strings byte-wise; UTF-8 makes that the same as comparing
the code points of the characters in order. -/
def charsLe : List Char → List Char → Bool
  | [], _ => true
  | _ :: _, [] => false
  | a :: as, b :: bs =>
    if a.toNat < b.toNat then true
    else if b.toNat < a.toNat then false
    else charsLe as bs

def strLeB (a b : String) : Bool := charsLe a.toList b.toList

/-- Propositional form of the Go string order, used by the sort. -/
def strLe (a b : String) : Prop := strLeB a b = true

instance strLe.dec : DecidableRel strLe :=
  fun a b => instDecidableEqBool (strLeB a b) true

/-- Model of `sort.Strings`: sort a list of strings ascending in the Go
string order.  (Go uses an unstable quicksort; since the order is total and
antisymmetric the sorted result is unique, so any sorting algorithm gives
the same list.) -/
def sortStrings (l : List String) : List String := List.insertionSort strLe l

/-! Model of `fmt.Sprintf("%v", x)` for the values that can appear in a
`Params` mapping.  Scalars print their usual textual form.  Slices print
space-separated in brackets.  Maps are printed by `fmt` in a deterministic
sorted order since Go 1.12; the model sorts the rendered `key:value`
entries, which is deterministic and order-independent in the same way.
The encoder only reaches the composite cases for values nested inside
slices, which no test of the library exercises. -/

mutual

def sprintf : Value → String
  | .str s => s
  | .int n => toString n
  | .bool b => if b then "true" else "false"
  | .other r => r
  | .slice vs => "[" ++ String.intercalate " " (sprintfList vs) ++ "]"
  | .params p => "map[" ++ String.intercalate " " (sortStrings (sprintfEntries p)) ++ "]"

def sprintfList : List Value → List String
  | [] => []
  | v :: vs => sprintf v :: sprintfList vs

def sprintfEntries : List (String × Value) → List String
  | [] => []
  | (k, v) :: p => (k ++ ":" ++ sprintf v) :: sprintfEntries p

end

/-- Model of `url.QueryEscape` on a single character: alphanumerics and
`-`, `_`, `.`, `~` are kept, a space becomes `+`, and anything else is
percent-encoded with uppercase hex digits.  (Go escapes each UTF-8 byte;
for the ASCII data handled by this library the two coincide.) -/
def hexUpper (n : Nat) : Char := "0123456789ABCDEF".toList.getD n '0'

def queryEscapeChar (c : Char) : String :=
  if c.isAlphanum || c = '-' || c = '_' || c = '.' || c = '~' then String.singleton c
  else if c = ' ' then "+"
  else "%" ++ String.singleton (hexUpper (c.toNat / 16)) ++ String.singleton (hexUpper (c.toNat % 16))

def queryEscape (s : String) : String := String.join (s.toList.map queryEscapeChar)

/-- The `pair` type from `stripe.go`: one `key`/`value` pair produced while
flattening a `Params` mapping. -/
structure pair where
  key : String
  value : Value

/-- Model of `pair.encode`: the key, a literal `=`, and the query-escaped
`%v` rendering of the value.  The key itself is not escaped. -/
def pair.encode (p : pair) : String := p.key ++ "=" ++ queryEscape (sprintf p.value)

/-! Models `Params.encodeToPairs` and `encodeSliceToPairs` from
`stripe.go`.  `encodeEntry` and `encodeElem` are the bodies of the
respective range loops: a nested `Params` recurses with the bracketed key,
a slice fans out to indexed keys, and anything else becomes a single pair.
Inside a slice only `Params` elements recurse (`encodeSliceToPairs` has no
slice case); any other element, a nested slice included, becomes one pair. -/

mutual

def encodeToPairs (parent : String) : List (String × Value) → List pair
  | [] => []
  | (k, v) :: rest =>
    encodeEntry (if parent ≠ "" then parent ++ "[" ++ k ++ "]" else k) v
      ++ encodeToPairs parent rest

def encodeEntry (k : String) : Value → List pair
  | .params p1 => encodeToPairs k p1
  | .slice vs => encodeSliceToPairs k 0 vs
  | v => [⟨k, v⟩]

def encodeSliceToPairs (key : String) (i : Nat) : List Value → List pair
  | [] => []
  | v :: rest =>
    encodeElem (key ++ "[" ++ toString i ++ "]") v ++ encodeSliceToPairs key (i + 1) rest

def encodeElem (k : String) : Value → List pair
  | .params p => encodeToPairs k p
  | v => [⟨k, v⟩]

end

/-- Model of `Params.Encode`: flatten to pairs, encode each pair, sort the
encoded strings ascending, and join with `&`. -/
def Params.Encode (p : Params) : String :=
  String.intercalate "&" (sortStrings ((encodeToPairs "" p).map pair.encode))

/-! Two `Params` association lists denote the same Go map when one is a
permutation of the other with equal keys and equivalent values; the
equivalence is closed under the same reordering at every nested `Params`
node.  `VEquiv` relates values, `SEquiv` relates slices position-wise, and
`PsEquiv` relates `Params` entry lists up to reordering. -/

mutual

inductive VEquiv : Value → Value → Type where
  | refl (v : Value) : VEquiv v v
  | params {p q : List (String × Value)} : PsEquiv p q → VEquiv (.params p) (.params q)
  | slice {vs ws : List Value} : SEquiv vs ws → VEquiv (.slice vs) (.slice ws)

inductive SEquiv : List Value → List Value → Type where
  | nil : SEquiv [] []
  | cons {v w : Value} {vs ws : List Value} :
      VEquiv v w → SEquiv vs ws → SEquiv (v :: vs) (w :: ws)

inductive PsEquiv : List (String × Value) → List (String × Value) → Type where
  | nil : PsEquiv [] []
  | cons (k : String) {v w : Value} {p q : List (String × Value)} :
      VEquiv v w → PsEquiv p q → PsEquiv ((k, v) :: p) ((k, w) :: q)
  | swap (a b : String × Value) (p : List (String × Value)) :
      PsEquiv (a :: b :: p) (b :: a :: p)
  | trans {p q r : List (String × Value)} : PsEquiv p q → PsEquiv q r → PsEquiv p r

end

/-- Multiset of encoded `key=value` strings of a pair list; the sorted
output of `Params.Encode` depends only on this multiset. -/
def encStrings (l : List pair) : Multiset String := ↑(l.map pair.encode)

/-! ## Domain resources

The resource structs embed the corresponding `stripe-go` value and the
locally owned fields.  Only the fields the claims touch are modelled:
times are `Int` Unix seconds, `sql.NullTime` is `Option Int`, statuses are
the status strings used by Stripe. -/

/-- Customer resource: the Stripe customer plus the locally owned
jurisdiction. -/
structure Customer where
  id : String
  email : String
  jurisdiction : String
deriving DecidableEq, Repr

/-- PaymentMethod resource: the Stripe payment method plus the locally
owned `Default` flag.  `customerId` is the owning customer reference. -/
structure PaymentMethod where
  id : String
  customerId : String
  default : Bool
deriving DecidableEq, Repr

/-- Subscription resource: the Stripe subscription plus the locally owned
`EndsAt` (`sql.NullTime`, modelled as `Option Int`). -/
structure Subscription where
  id : String
  customerId : String
  status : String
  startDate : Int
  currentPeriodEnd : Int
  endsAt : Option Int
deriving DecidableEq, Repr

/-- Invoice resource.  `paymentIntentStatus` is the status of the expanded
payment intent of the invoice (`Invoice.PaymentIntent.Status`). -/
structure Invoice where
  id : String
  customerId : String
  number : String
  amountDue : Int
  status : String
  paymentIntentStatus : String
deriving DecidableEq, Repr

/-- The closed union of resources accepted by `Store.Put` (Go dispatches on
the dynamic type of the `Resource` interface value). -/
inductive Resource where
  | customer : Customer → Resource
  | invoice : Invoice → Resource
  | paymentMethod : PaymentMethod → Resource
  | subscription : Subscription → Resource
deriving DecidableEq, Repr

/-- Errors surfaced by the modelled operations.  `paymentIntent` is the
`ErrPaymentIntent` struct from `stripe.go`, carrying the latest invoice's
id and the observed payment-intent status; `api` stands for transport and
Stripe API errors, `storeFailure` for store errors. -/
inductive Err where
  | api : String → Err
  | storeFailure : String → Err
  | paymentIntent : String → String → Err
deriving DecidableEq, Repr

/-- The `validSubscriptionStatuses` set from the subscription resource
file: "all", "active" and "trialing". -/
def validSubscriptionStatuses : List String := ["all", "active", "trialing"]

/-- Model of `Subscription.Valid`: if a cancellation is scheduled the
subscription is valid exactly while `now` precedes `EndsAt`; otherwise it
is valid exactly when its status is in `validSubscriptionStatuses`. -/
def Subscription.Valid (now : Int) (s : Subscription) : Bool :=
  match s.endsAt with
  | some t => decide (now < t)
  | none => validSubscriptionStatuses.contains s.status

/-- Go methods on `*Subscription` accept a nil receiver; `Valid` returns
false for nil.  The nil pointer is modelled as `none`. -/
def Subscription.validOpt (now : Int) : Option Subscription → Bool
  | none => false
  | some s => s.Valid now

/-- Model of `Subscription.WithinGrace`: a cancellation is scheduled and
`now` precedes `EndsAt`; false for nil. -/
def Subscription.WithinGrace (now : Int) : Option Subscription → Bool
  | none => false
  | some s =>
    match s.endsAt with
    | some t => decide (now < t)
    | none => false

/-! ## Remote call oracles

Each remote mutation that the orchestrator performs is modelled by the
response Stripe would send, fixed up front in `RemoteEnv`.  `.ok` carries
the decoded response entity, `.error` a transport or API error. -/

/-- Responses of the remote calls issued by `Subscribe` and `Unsubscribe`:
the payment-method attach, the customer update, the subscription creation
(whose expanded response carries the created subscription together with
its latest invoice), and the cancel-at-period-end subscription update. -/
structure RemoteEnv where
  attachResp : Except Err PaymentMethod
  updateResp : Except Err Customer
  createResp : Except Err (Subscription × Invoice)
  cancelResp : Except Err Subscription
deriving Repr

/-- Model of `PaymentMethod.Attach` (payment-method file): the method posts
to the attach endpoint and assigns the decoded response to the local
variable `pm`, not through the receiver pointer, so the caller's
`PaymentMethod` value is returned unchanged; only the error escapes. -/
def PaymentMethod.Attach (resp : Except Err PaymentMethod) (pm : PaymentMethod) :
    PaymentMethod × Option Err :=
  match resp with
  | .ok _ => (pm, none)
  | .error e => (pm, some e)

/-- Model of `PaymentMethod.Update`: same shape as `Attach`, and the same
local-variable assignment, so the receiver is again returned unchanged. -/
def PaymentMethod.Update (resp : Except Err PaymentMethod) (pm : PaymentMethod) :
    PaymentMethod × Option Err :=
  match resp with
  | .ok _ => (pm, none)
  | .error e => (pm, some e)

/-- Model of `Customer.Update` (customer file): on success the decoded
response is written through the receiver (`(*c) = (*c1)`), so the caller
sees the updated customer. -/
def Customer.Update (resp : Except Err Customer) (c : Customer) :
    Customer × Option Err :=
  match resp with
  | .ok c1 => (c1, none)
  | .error e => (c, some e)

/-- Model of `Subscription.Cancel` (subscription file): update the remote
subscription with `cancel_at_period_end = true`; on success the receiver
becomes the decoded response with `EndsAt` set to the response's
`CurrentPeriodEnd`. -/
def Subscription.Cancel (resp : Except Err Subscription) (s : Subscription) :
    Subscription × Option Err :=
  match resp with
  | .ok s1 => ({ s1 with endsAt := some s1.currentPeriodEnd }, none)
  | .error e => (s, some e)

/-! ## Store contract

The orchestrator only calls `Store.Subscription` and `Store.Put`; a store
backend is modelled by those two operations over an explicit state `σ`.
`subscription` returns the customer's subscription, the found flag, and a
possible store error; `put` upserts one resource and may fail. -/

structure StoreOps (σ : Type) where
  subscription : σ → Customer → Option Subscription × Bool × Option Err
  put : σ → Resource → σ × Option Err

/-- Effects performed by `Stripe.Subscribe`, in order: the two remote
calls preceding the store write of the payment method, the remote
subscription creation, and the store writes of the subscription and its
latest invoice. -/
inductive Eff where
  | attachCall
  | updateCall
  | putPaymentMethod : PaymentMethod → Eff
  | createCall
  | putSubscription : Subscription → Eff
  | putInvoice : Invoice → Eff
deriving DecidableEq, Repr

/-- The payment-intent statuses `Subscribe` accepts (the `statuses` set in
`stripe.go`): "processing" and "succeeded". -/
def piUsableStatuses : List String := ["processing", "succeeded"]

/-- Model of `Stripe.Subscribe` from `stripe.go`.  The steps, in source
order: look up the stored subscription; attach the payment method; update
the customer's default payment method remotely; mark the payment method as
the default for the (updated) customer and `Put` it; if a valid
subscription was found return it unchanged (the idempotency
short-circuit); otherwise create the subscription remotely and inspect the
latest invoice's payment-intent status: a usable status persists the
subscription and its latest invoice, any other status returns
`ErrPaymentIntent` with nothing persisted.  The error result of a create
that failed remotely is returned with `none` in place of Go's zero-value
`&Subscription` carcass. -/
def Stripe.Subscribe {σ : Type} (ops : StoreOps σ) (env : RemoteEnv) (now : Int)
    (st : σ) (c : Customer) (pm : PaymentMethod) :
    (Option Subscription × Option Err) × σ × List Eff :=
  match ops.subscription st c with
  | (sub?, _, some e) => ((sub?, some e), st, [])
  | (sub?, ok, none) =>
    match PaymentMethod.Attach env.attachResp pm with
    | (_, some e) => ((sub?, some e), st, [.attachCall])
    | (pmA, none) =>
      match Customer.Update env.updateResp c with
      | (_, some e) => ((sub?, some e), st, [.attachCall, .updateCall])
      | (c1, none) =>
        let pm1 : PaymentMethod := { pmA with customerId := c1.id, default := true }
        match ops.put st (.paymentMethod pm1) with
        | (st1, some e) =>
          ((sub?, some e), st1, [.attachCall, .updateCall, .putPaymentMethod pm1])
        | (st1, none) =>
          if ok && Subscription.validOpt now sub? then
            ((sub?, none), st1, [.attachCall, .updateCall, .putPaymentMethod pm1])
          else
            match env.createResp with
            | .error e =>
              ((none, some e), st1,
                [.attachCall, .updateCall, .putPaymentMethod pm1, .createCall])
            | .ok (subC, inv) =>
              if piUsableStatuses.contains inv.paymentIntentStatus then
                match ops.put st1 (.subscription subC) with
                | (st2, some e) =>
                  ((some subC, some e), st2,
                    [.attachCall, .updateCall, .putPaymentMethod pm1, .createCall,
                      .putSubscription subC])
                | (st2, none) =>
                  match ops.put st2 (.invoice inv) with
                  | (st3, e3) =>
                    ((some subC, e3), st3,
                      [.attachCall, .updateCall, .putPaymentMethod pm1, .createCall,
                        .putSubscription subC, .putInvoice inv])
              else
                ((some subC, some (Err.paymentIntent inv.id inv.paymentIntentStatus)), st1,
                  [.attachCall, .updateCall, .putPaymentMethod pm1, .createCall])

/-- Effects performed by `Stripe.Unsubscribe`: the remote
cancel-at-period-end update and the store write of the updated
subscription. -/
inductive UEff where
  | cancelCall
  | putSubscription : Subscription → UEff
deriving DecidableEq, Repr

/-- Model of `Stripe.Unsubscribe` from `stripe.go`: look up the stored
subscription; return `(nil, nil)` when it is absent or not `Valid`; return
it unchanged when a cancellation is already scheduled (`EndsAt` set);
otherwise cancel remotely at period end, `Put` the updated subscription
and return it. -/
def Stripe.Unsubscribe {σ : Type} (ops : StoreOps σ) (env : RemoteEnv) (now : Int)
    (st : σ) (c : Customer) :
    (Option Subscription × Option Err) × σ × List UEff :=
  match ops.subscription st c with
  | (_, _, some e) => ((none, some e), st, [])
  | (sub?, ok, none) =>
    if !ok then ((none, none), st, [])
    else if !(Subscription.validOpt now sub?) then ((none, none), st, [])
    else
      match sub? with
      | none => ((none, none), st, [])
      | some sub =>
        if sub.endsAt.isSome then ((some sub, none), st, [])
        else
          match Subscription.Cancel env.cancelResp sub with
          | (_, some e) => ((none, some e), st, [.cancelCall])
          | (sub1, none) =>
            match ops.put st (.subscription sub1) with
            | (st1, some e) => ((none, some e), st1, [.cancelCall, .putSubscription sub1])
            | (st1, none) => ((some sub1, none), st1, [.cancelCall, .putSubscription sub1])

/-! ## Association-list maps

Go maps used by the store and loader models: `lookupA` is indexing,
`upsert` is map assignment (`m[k] = v`). -/

def lookupA {β : Type} (k : String) : List (String × β) → Option β
  | [] => none
  | (k1, v) :: rest => if k1 = k then some v else lookupA k rest

def upsert {β : Type} (k : String) (v : β) : List (String × β) → List (String × β)
  | [] => [(k, v)]
  | (k1, v1) :: rest => if k1 = k then (k, v) :: rest else (k1, v1) :: upsert k v rest

/-! ## The in-memory `TestStore`

Translated from the test-store file: four maps, `Put` dispatching on the
resource kind.  Customers are keyed by email and upserted; subscriptions
are keyed by customer id and upserted; invoices and payment methods are
appended to their customer's list.  Every operation returns a nil error. -/

structure TestStore where
  customers : List (String × Customer)
  invoices : List (String × List Invoice)
  paymentMethods : List (String × List PaymentMethod)
  subscriptions : List (String × Subscription)
deriving DecidableEq, Repr

def newTestStore : TestStore := ⟨[], [], [], []⟩

/-- Model of `TestStore.Subscription`: index the subscriptions map by the
customer id; the found flag is the map-lookup `ok`, the error is nil. -/
def TestStore.Subscription (s : TestStore) (c : Customer) :
    Option Subscription × Bool × Option Err :=
  match lookupA c.id s.subscriptions with
  | some sub => (some sub, true, none)
  | none => (none, false, none)

/-- Model of `TestStore.Put`: dispatch on the resource kind exactly as the
Go type switch does.  Note that a `PaymentMethod` is appended to the
customer's list unconditionally; no check clears the `default` flag of the
other payment methods of that customer. -/
def TestStore.Put (s : TestStore) (r : Resource) : TestStore :=
  match r with
  | .customer c => { s with customers := upsert c.email c s.customers }
  | .invoice i =>
    { s with invoices := upsert i.customerId (((lookupA i.customerId s.invoices).getD []) ++ [i]) s.invoices }
  | .subscription sub =>
    { s with subscriptions := upsert sub.customerId sub s.subscriptions }
  | .paymentMethod pm =>
    { s with paymentMethods := upsert pm.customerId (((lookupA pm.customerId s.paymentMethods).getD []) ++ [pm]) s.paymentMethods }

/-- The `TestStore` as a store backend for the orchestrator: lookups and
writes as above, never failing. -/
def testStoreOps : StoreOps TestStore :=
  ⟨TestStore.Subscription, fun s r => (s.Put r, none)⟩

/-- Number of payment methods of customer `cid` in a `TestStore` that
carry `default = true`. -/
def TestStore.countDefaults (s : TestStore) (cid : String) : Nat :=
  ((lookupA cid s.paymentMethods).getD []).countP (fun pm => pm.default)

/-! ## The PostgreSQL store (payment methods and the event log)

`PSQL.putPaymentMethod` is translated from the PostgreSQL store file: when
the incoming payment method has `Default` set, first set `is_default =
false` on every row of that customer; then select the row with the payment
method's id; insert the new row only when none exists (an existing row is
left as is).  The `stripe_payment_methods` table is modelled as a list of
rows. -/

structure PMRow where
  id : String
  customerId : String
  isDefault : Bool
deriving DecidableEq, Repr

def PSQL.putPaymentMethod (table : List PMRow) (pm : PaymentMethod) : List PMRow :=
  let t1 :=
    if pm.default then
      table.map (fun r => if r.customerId = pm.customerId then { r with isDefault := false } else r)
    else table
  if (t1.filter (fun r => r.id = pm.id)).isEmpty then
    t1 ++ [⟨pm.id, pm.customerId, pm.default⟩]
  else t1

/-- Number of rows of customer `cid` with `is_default = true`. -/
def PMRow.defaultCount (table : List PMRow) (cid : String) : Nat :=
  table.countP (fun r => r.customerId = cid && r.isDefault)

/-- Model of `PSQL.LogEvent`: count the rows with the given event id;
`ErrEventExists` when one exists, otherwise insert the id.  The event
table is modelled as the list of logged ids. -/
inductive LogErr where
  | eventExists
  | failure
deriving DecidableEq, Repr

def PSQL.LogEvent (events : List String) (id : String) : List String × Option LogErr :=
  if events.contains id then (events, some .eventExists)
  else (events ++ [id], none)

/-! ## Bulk tax-rate loader (`tax.go`)

`Taxes.Reload` spawns one task per id.  Each task posts its `Load` error,
if any, to the error channel, which is drained into `errh`; the tasks are
joined before the merge.  A fetched rate is modelled by the oracle
`fetch : String → Except String TaxRateData`; a task whose `Load` fails
leaves its pre-constructed `TaxRate{ID: id}` placeholder untouched (all
other fields remain zero, so the jurisdiction is the empty string).  The
merge then runs over the `rates` slice, which holds every constructed
rate, loaded or not: any rate whose id is new is recorded and stored in
the jurisdiction map. -/

structure TaxRateData where
  id : String
  jurisdiction : String
deriving DecidableEq, Repr

structure TaxesState where
  ids : List String
  rates : List (String × TaxRateData)
deriving DecidableEq, Repr

/-- The rate the task for `id` leaves behind: the decoded response on
success, the placeholder with only the id set on failure. -/
def loadedRate (fetch : String → Except String TaxRateData) (id : String) : TaxRateData :=
  match fetch id with
  | .ok tr => tr
  | .error _ => { id := id, jurisdiction := "" }

/-- Model of `Taxes.Reload` on an already-parsed id list: the resulting
state together with the number of `errh` invocations (one per failed
fetch). -/
def Taxes.Reload (fetch : String → Except String TaxRateData) (ids : List String)
    (t : TaxesState) : TaxesState × Nat :=
  let rates := ids.map (loadedRate fetch)
  let errCount := (ids.filter (fun id => (fetch id).isOk = false)).length
  let merged := rates.foldl
    (fun acc tr =>
      if acc.ids.contains tr.id then acc
      else { ids := tr.id :: acc.ids, rates := upsert tr.jurisdiction tr acc.rates })
    t
  (merged, errCount)

/-- Model of the alternative per-id loader `Taxes.loadTaxRate`: every
failure (transport, API, decode) is reported to `errh` and inserts
nothing; a success inserts the rate only when its id is new.  The second
component counts the `errh` invocations of the call. -/
def Taxes.loadTaxRate (fetch : String → Except String TaxRateData)
    (t : TaxesState) (id : String) : TaxesState × Nat :=
  match fetch id with
  | .error _ => (t, 1)
  | .ok tr =>
    (if t.ids.contains tr.id then t
     else { ids := tr.id :: t.ids, rates := upsert tr.jurisdiction tr t.rates }, 0)

/-! ## Webhook dispatcher (`hook.go`)

`HandlerFunc` reads the body, verifies the signature (both modelled as
oracles), deduplicates through the store when one is present, and invokes
the handler registered for the event type.  The registered-handler map is
modelled as the predicate `handlers : String → Bool` (whether a handler is
registered for a type); the outcome records the HTTP status written or the
dispatch that took place. -/

structure Event where
  id : String
  type : String
deriving DecidableEq, Repr

inductive HookOutcome where
  | unavailable
  | badSignature
  | storeFailure
  | duplicate
  | dispatched : Event → HookOutcome
  | noHandler
deriving DecidableEq, Repr

/-- True exactly when the outcome is a handler invocation. -/
def HookOutcome.invoked : HookOutcome → Bool
  | .dispatched _ => true
  | _ => false

/-- Model of `HookHandler.HandlerFunc`.  `readOk` is whether reading the
request body succeeded (503 otherwise), `verified` the result of
`webhook.ConstructEvent` (400 on failure).  With a store present,
`LogEvent` is attempted: `ErrEventExists` answers 202 without looking up
any handler, any other error answers 500; a nil store skips the
deduplication entirely.  Finally the handler registered for the event type
runs, or 200 is written when none is registered. -/
def HookHandler.HandlerFunc (σ : Type) (logEvent : σ → String → σ × Option LogErr)
    (handlers : String → Bool) (readOk : Bool) (verified : Except Unit Event)
    (store : Option σ) : HookOutcome × Option σ :=
  if readOk = false then (.unavailable, store)
  else
    match verified with
    | .error _ => (.badSignature, store)
    | .ok ev =>
      match store with
      | none =>
        if handlers ev.type then (.dispatched ev, none) else (.noHandler, none)
      | some st =>
        match logEvent st ev.id with
        | (st1, some .eventExists) => (.duplicate, some st1)
        | (st1, some .failure) => (.storeFailure, some st1)
        | (st1, none) =>
          if handlers ev.type then (.dispatched ev, some st1) else (.noHandler, some st1)

/-! ## Properties of the Go string order and of `sortStrings` -/

theorem charsLe_trans : ∀ l1 l2 l3 : List Char,
    charsLe l1 l2 = true → charsLe l2 l3 = true → charsLe l1 l3 = true
  | [], _, _ => fun _ _ => rfl
  | a :: as, [], _ => fun h _ => by simp [charsLe] at h
  | a :: as, b :: bs, [] => fun _ h => by simp [charsLe] at h
  | a :: as, b :: bs, c :: cs => fun h1 h2 => by
    simp only [charsLe] at h1 h2 ⊢
    have h1' : a.toNat < b.toNat ∨ (a.toNat = b.toNat ∧ charsLe as bs = true) := by
      by_cases hab : a.toNat < b.toNat
      · exact Or.inl hab
      · by_cases hba : b.toNat < a.toNat
        · rw [if_neg hab, if_pos hba] at h1
          simp at h1
        · rw [if_neg hab, if_neg hba] at h1
          exact Or.inr ⟨by omega, h1⟩
    have h2' : b.toNat < c.toNat ∨ (b.toNat = c.toNat ∧ charsLe bs cs = true) := by
      by_cases hbc : b.toNat < c.toNat
      · exact Or.inl hbc
      · by_cases hcb : c.toNat < b.toNat
        · rw [if_neg hbc, if_pos hcb] at h2
          simp at h2
        · rw [if_neg hbc, if_neg hcb] at h2
          exact Or.inr ⟨by omega, h2⟩
    rcases h1' with hab | ⟨hab, hrec1⟩
    · rcases h2' with hbc | ⟨hbc, _⟩
      · rw [if_pos (by omega)]
      · rw [if_pos (by omega)]
    · rcases h2' with hbc | ⟨hbc, hrec2⟩
      · rw [if_pos (by omega)]
      · rw [if_neg (by omega), if_neg (by omega)]
        exact charsLe_trans as bs cs hrec1 hrec2

theorem charsLe_total : ∀ l1 l2 : List Char, charsLe l1 l2 = true ∨ charsLe l2 l1 = true
  | [], _ => Or.inl rfl
  | _ :: _, [] => Or.inr rfl
  | a :: as, b :: bs => by
    simp only [charsLe]
    by_cases hab : a.toNat < b.toNat
    · left
      rw [if_pos hab]
    · by_cases hba : b.toNat < a.toNat
      · right
        rw [if_pos hba]
      · rw [if_neg hab, if_neg hba, if_neg hba, if_neg hab]
        exact charsLe_total as bs

theorem charsLe_antisymm : ∀ l1 l2 : List Char,
    charsLe l1 l2 = true → charsLe l2 l1 = true → l1 = l2
  | [], [] => fun _ _ => rfl
  | [], b :: bs => fun _ h => by simp [charsLe] at h
  | a :: as, [] => fun h _ => by simp [charsLe] at h
  | a :: as, b :: bs => fun h1 h2 => by
    simp only [charsLe] at h1 h2
    by_cases hab : a.toNat < b.toNat
    · rw [if_neg (by omega), if_pos hab] at h2
      exact absurd h2 (by simp)
    · by_cases hba : b.toNat < a.toNat
      · rw [if_neg (by omega), if_pos hba] at h1
        exact absurd h1 (by simp)
      · rw [if_neg hab, if_neg hba] at h1
        rw [if_neg hba, if_neg hab] at h2
        have hc : a = b := Char.ext (UInt32.toNat.inj (show a.toNat = b.toNat by omega))
        rw [hc, charsLe_antisymm as bs h1 h2]

theorem strLe_trans_inst : IsTrans String strLe :=
  ⟨fun a b c h1 h2 => charsLe_trans a.toList b.toList c.toList h1 h2⟩

theorem strLe_total_inst : IsTotal String strLe :=
  ⟨fun a b => charsLe_total a.toList b.toList⟩

theorem strLe_antisymm_inst : IsAntisymm String strLe :=
  ⟨fun a b h1 h2 => String.ext (charsLe_antisymm a.toList b.toList h1 h2)⟩

theorem sortStrings_sorted (l : List String) : (sortStrings l).Sorted strLe := by
  haveI := strLe_trans_inst
  haveI := strLe_total_inst
  exact List.sorted_insertionSort strLe l

theorem sortStrings_perm (l : List String) : List.Perm (sortStrings l) l :=
  List.perm_insertionSort strLe l

theorem sortStrings_congr {l₁ l₂ : List String} (h : List.Perm l₁ l₂) :
    sortStrings l₁ = sortStrings l₂ := by
  haveI := strLe_antisymm_inst
  exact List.eq_of_perm_of_sorted
    ((sortStrings_perm l₁).trans (h.trans (sortStrings_perm l₂).symm))
    (sortStrings_sorted l₁) (sortStrings_sorted l₂)

/-! ## The encoded output is invariant under `Params` reordering -/

mutual

theorem vequiv_sprintf {v w : Value} (h : VEquiv v w) : sprintf v = sprintf w := by
  match h with
  | .refl _ => rfl
  | .params hp =>
    simp only [sprintf]
    rw [sortStrings_congr (psequiv_entries hp)]
  | .slice hs =>
    simp only [sprintf]
    rw [sequiv_sprintfList hs]

theorem sequiv_sprintfList {vs ws : List Value} (h : SEquiv vs ws) :
    sprintfList vs = sprintfList ws := by
  match h with
  | .nil => rfl
  | .cons hv hs =>
    simp only [sprintfList]
    rw [vequiv_sprintf hv, sequiv_sprintfList hs]

theorem psequiv_entries {p q : List (String × Value)} (h : PsEquiv p q) :
    List.Perm (sprintfEntries p) (sprintfEntries q) := by
  match h with
  | .nil => exact List.Perm.refl _
  | .cons k hv hp =>
    simp only [sprintfEntries]
    rw [vequiv_sprintf hv]
    exact (psequiv_entries hp).cons _
  | .swap a b p =>
    simp only [sprintfEntries]
    exact List.Perm.swap _ _ _
  | .trans h1 h2 => exact (psequiv_entries h1).trans (psequiv_entries h2)

end

theorem encStrings_append (l₁ l₂ : List pair) :
    encStrings (l₁ ++ l₂) = encStrings l₁ + encStrings l₂ := by
  simp [encStrings]

mutual

theorem psequiv_pairs {p q : List (String × Value)} (h : PsEquiv p q) :
    ∀ parent, encStrings (encodeToPairs parent p) = encStrings (encodeToPairs parent q) := by
  match h with
  | .nil => intro parent; rfl
  | .cons k hv hp =>
    intro parent
    simp only [encodeToPairs, encStrings_append]
    rw [vequiv_entry hv, psequiv_pairs hp parent]
  | .swap a b p =>
    intro parent
    simp only [encodeToPairs, encStrings_append]
    rw [← add_assoc, ← add_assoc]
    rw [add_comm (encStrings (encodeEntry _ a.2))]
  | .trans h1 h2 =>
    intro parent
    rw [psequiv_pairs h1 parent, psequiv_pairs h2 parent]

theorem vequiv_entry {v w : Value} (h : VEquiv v w) :
    ∀ k, encStrings (encodeEntry k v) = encStrings (encodeEntry k w) := by
  match h with
  | .refl v => intro k; rfl
  | .params hp1 =>
    intro k
    simp only [encodeEntry]
    exact psequiv_pairs hp1 k
  | .slice hs1 =>
    intro k
    simp only [encodeEntry]
    exact sequiv_pairs hs1 k 0

theorem sequiv_pairs {vs ws : List Value} (h : SEquiv vs ws) :
    ∀ key i, encStrings (encodeSliceToPairs key i vs) = encStrings (encodeSliceToPairs key i ws) := by
  match h with
  | .nil => intro key i; rfl
  | .cons hv hs =>
    intro key i
    simp only [encodeSliceToPairs, encStrings_append]
    rw [vequiv_elem hv, sequiv_pairs hs key (i + 1)]

theorem vequiv_elem {v w : Value} (h : VEquiv v w) :
    ∀ k, encStrings (encodeElem k v) = encStrings (encodeElem k w) := by
  match h with
  | .refl v => intro k; rfl
  | .params hp1 =>
    intro k
    simp only [encodeElem]
    exact psequiv_pairs hp1 k
  | .slice hs1 =>
    intro k
    simp only [encodeElem]
    simp only [encStrings, pair.encode, List.map]
    rw [vequiv_sprintf (VEquiv.slice hs1)]

end

theorem params_encode_congr {p q : Params} (h : PsEquiv p q) :
    Params.Encode p = Params.Encode q := by
  unfold Params.Encode
  rw [sortStrings_congr (Multiset.coe_eq_coe.mp (psequiv_pairs h ""))]

/-- Claim C6: the parameter encoder is deterministic and canonical.  For
any two association lists related by `PsEquiv` (the same nested mapping
presented in different iteration orders) `Params.Encode` produces the same
string; the output is the list of encoded `key=value` strings joined with
`&` in ascending Go string order (`strLe`); and the specific input
`a ↦ (b ↦ 1), c ↦ [1, 2]` encodes to exactly `a[b]=1&c[0]=1&c[1]=2`. -/
theorem params_encode_deterministic_canonical {p q : Params} (h : PsEquiv p q) :
    Params.Encode p = Params.Encode q
    ∧ (sortStrings ((encodeToPairs "" p).map pair.encode)).Sorted strLe
    ∧ Params.Encode p = String.intercalate "&" (sortStrings ((encodeToPairs "" p).map pair.encode))
    ∧ Params.Encode [("a", Value.params [("b", Value.int 1)]), ("c", Value.slice [Value.int 1, Value.int 2])]
        = "a[b]=1&c[0]=1&c[1]=2" := by
  refine ⟨params_encode_congr h, sortStrings_sorted _, rfl, ?_⟩
  simp only [Params.Encode, encodeToPairs, encodeEntry, encodeSliceToPairs, encodeElem,
    pair.encode, sprintf, List.map]
  decide

/-- Witness for C6 at a concrete input: the two-entry mapping
`x ↦ 1, y ↦ 2` written in both orders. -/
theorem params_encode_deterministic_canonical_witness :
    Params.Encode [("x", Value.int 1), ("y", Value.int 2)]
        = Params.Encode [("y", Value.int 2), ("x", Value.int 1)]
    ∧ (sortStrings ((encodeToPairs "" [("x", Value.int 1), ("y", Value.int 2)]).map pair.encode)).Sorted strLe
    ∧ Params.Encode [("x", Value.int 1), ("y", Value.int 2)]
        = String.intercalate "&" (sortStrings ((encodeToPairs "" [("x", Value.int 1), ("y", Value.int 2)]).map pair.encode))
    ∧ Params.Encode [("a", Value.params [("b", Value.int 1)]), ("c", Value.slice [Value.int 1, Value.int 2])]
        = "a[b]=1&c[0]=1&c[1]=2" :=
  params_encode_deterministic_canonical
    (PsEquiv.swap ("x", Value.int 1) ("y", Value.int 2) [])

/-- Counterexample to claim C8: `Params.Encode` does not fail on a value
that is neither a mapping, nor a sequence, nor a scalar.  The source has
no error path at all: the encoder's final case stringifies any such value
with `fmt %v` and emits an ordinary pair, as evaluating it on a mapping
containing one `other` value shows. -/
theorem params_encode_no_type_error_counterexample :
    Params.Encode [("k", Value.other "v")] = "k=v" := by
  simp only [Params.Encode, encodeToPairs, encodeEntry, pair.encode, sprintf, List.map]
  decide

/-- Claim C8 as amended: encoding never fails; a value that is neither a
nested `Params` nor a slice — scalar or not — is stringified with the
generic `%v` representation and encoded as an ordinary query-escaped
`key=value` pair. -/
theorem params_encode_other_value_stringified (k r : String) :
    Params.Encode [(k, Value.other r)] = k ++ "=" ++ queryEscape r := by
  simp only [Params.Encode, encodeToPairs, encodeEntry, pair.encode, sprintf, List.map,
    sortStrings, List.insertionSort, List.orderedInsert]
  simp [String.intercalate, String.intercalate.go]

/-! ## Subscribe: the idempotency short-circuit -/

theorem subscribe_short_circuit_aux {σ : Type} (ops : StoreOps σ) (env : RemoteEnv)
    (now : Int) (st0 st1 : σ) (c : Customer) (pm : PaymentMethod)
    (sub : Subscription) (apm : PaymentMethod) (uc : Customer)
    (h1 : ops.subscription st0 c = (some sub, true, none))
    (hv : sub.Valid now = true)
    (ha : env.attachResp = Except.ok apm)
    (hu : env.updateResp = Except.ok uc)
    (hput : ops.put st0 (Resource.paymentMethod { pm with customerId := uc.id, default := true })
        = (st1, none)) :
    Stripe.Subscribe ops env now st0 c pm
      = ((some sub, none), st1,
          [Eff.attachCall, Eff.updateCall,
            Eff.putPaymentMethod { pm with customerId := uc.id, default := true }]) := by
  unfold Stripe.Subscribe
  rw [h1]
  simp only [PaymentMethod.Attach, Customer.Update, ha, hu]
  rw [hput]
  simp [Subscription.validOpt, hv]

/-- Claim C1: the Subscribe idempotency short-circuit.  When the store
lookup finds a subscription that is `Valid`, and the remote payment-method
attach, the remote customer update and the payment-method `Put` all
succeed, `Subscribe` returns the stored subscription unchanged; its effect
trace contains no subscription-creation call.  Under the same conditions
at the store state the first call leaves behind, a second `Subscribe`
returns the identical subscription, again without creating one. -/
theorem subscribe_idempotent_short_circuit {σ : Type} (ops : StoreOps σ)
    (env env2 : RemoteEnv) (now now2 : Int) (st0 st1 st2 : σ) (c c2 : Customer)
    (pm pm2 : PaymentMethod) (sub : Subscription)
    (apm apm2 : PaymentMethod) (uc uc2 : Customer)
    (h1 : ops.subscription st0 c = (some sub, true, none))
    (hv : sub.Valid now = true)
    (ha : env.attachResp = Except.ok apm)
    (hu : env.updateResp = Except.ok uc)
    (hput : ops.put st0 (Resource.paymentMethod { pm with customerId := uc.id, default := true })
        = (st1, none))
    (h2 : ops.subscription st1 c2 = (some sub, true, none))
    (hv2 : sub.Valid now2 = true)
    (ha2 : env2.attachResp = Except.ok apm2)
    (hu2 : env2.updateResp = Except.ok uc2)
    (hput2 : ops.put st1 (Resource.paymentMethod { pm2 with customerId := uc2.id, default := true })
        = (st2, none)) :
    Stripe.Subscribe ops env now st0 c pm
        = ((some sub, none), st1,
            [Eff.attachCall, Eff.updateCall,
              Eff.putPaymentMethod { pm with customerId := uc.id, default := true }])
    ∧ Stripe.Subscribe ops env2 now2 st1 c2 pm2
        = ((some sub, none), st2,
            [Eff.attachCall, Eff.updateCall,
              Eff.putPaymentMethod { pm2 with customerId := uc2.id, default := true }])
    ∧ Eff.createCall ∉ (Stripe.Subscribe ops env now st0 c pm).2.2
    ∧ Eff.createCall ∉ (Stripe.Subscribe ops env2 now2 st1 c2 pm2).2.2
    ∧ (Stripe.Subscribe ops env now st0 c pm).1.1
        = (Stripe.Subscribe ops env2 now2 st1 c2 pm2).1.1 := by
  have e1 := subscribe_short_circuit_aux ops env now st0 st1 c pm sub apm uc h1 hv ha hu hput
  have e2 := subscribe_short_circuit_aux ops env2 now2 st1 st2 c2 pm2 sub apm2 uc2 h2 hv2 ha2 hu2 hput2
  refine ⟨e1, e2, ?_, ?_, ?_⟩
  · rw [e1]
    simp
  · rw [e2]
    simp
  · rw [e1, e2]

/-- Witness for C1: a concrete `TestStore` holding an active subscription
for customer `cus_1`; both calls short-circuit and return it. -/
theorem subscribe_idempotent_short_circuit_witness :
    Stripe.Subscribe testStoreOps
        ⟨Except.ok ⟨"pm_1", "", false⟩, Except.ok ⟨"cus_1", "e@x", ""⟩,
          Except.error (Err.api "unused"), Except.error (Err.api "unused")⟩ 0
        ⟨[], [], [], [("cus_1", ⟨"sub_1", "cus_1", "active", 0, 100, none⟩)]⟩
        ⟨"cus_1", "e@x", ""⟩ ⟨"pm_1", "", false⟩
        = ((some ⟨"sub_1", "cus_1", "active", 0, 100, none⟩,
              none),
            ⟨[], [], [("cus_1", [⟨"pm_1", "cus_1", true⟩])],
              [("cus_1", ⟨"sub_1", "cus_1", "active", 0, 100, none⟩)]⟩,
            [Eff.attachCall, Eff.updateCall, Eff.putPaymentMethod ⟨"pm_1", "cus_1", true⟩])
    ∧ Stripe.Subscribe testStoreOps
        ⟨Except.ok ⟨"pm_1", "", false⟩, Except.ok ⟨"cus_1", "e@x", ""⟩,
          Except.error (Err.api "unused"), Except.error (Err.api "unused")⟩ 0
        ⟨[], [], [("cus_1", [⟨"pm_1", "cus_1", true⟩])],
          [("cus_1", ⟨"sub_1", "cus_1", "active", 0, 100, none⟩)]⟩
        ⟨"cus_1", "e@x", ""⟩ ⟨"pm_1", "", false⟩
        = ((some ⟨"sub_1", "cus_1", "active", 0, 100, none⟩,
              none),
            ⟨[], [],
              [("cus_1", [⟨"pm_1", "cus_1", true⟩, ⟨"pm_1", "cus_1", true⟩])],
              [("cus_1", ⟨"sub_1", "cus_1", "active", 0, 100, none⟩)]⟩,
            [Eff.attachCall, Eff.updateCall, Eff.putPaymentMethod ⟨"pm_1", "cus_1", true⟩])
    ∧ Eff.createCall ∉ (Stripe.Subscribe testStoreOps
        ⟨Except.ok ⟨"pm_1", "", false⟩, Except.ok ⟨"cus_1", "e@x", ""⟩,
          Except.error (Err.api "unused"), Except.error (Err.api "unused")⟩ 0
        ⟨[], [], [], [("cus_1", ⟨"sub_1", "cus_1", "active", 0, 100, none⟩)]⟩
        ⟨"cus_1", "e@x", ""⟩ ⟨"pm_1", "", false⟩).2.2
    ∧ Eff.createCall ∉ (Stripe.Subscribe testStoreOps
        ⟨Except.ok ⟨"pm_1", "", false⟩, Except.ok ⟨"cus_1", "e@x", ""⟩,
          Except.error (Err.api "unused"), Except.error (Err.api "unused")⟩ 0
        ⟨[], [], [("cus_1", [⟨"pm_1", "cus_1", true⟩])],
          [("cus_1", ⟨"sub_1", "cus_1", "active", 0, 100, none⟩)]⟩
        ⟨"cus_1", "e@x", ""⟩ ⟨"pm_1", "", false⟩).2.2
    ∧ (Stripe.Subscribe testStoreOps
        ⟨Except.ok ⟨"pm_1", "", false⟩, Except.ok ⟨"cus_1", "e@x", ""⟩,
          Except.error (Err.api "unused"), Except.error (Err.api "unused")⟩ 0
        ⟨[], [], [], [("cus_1", ⟨"sub_1", "cus_1", "active", 0, 100, none⟩)]⟩
        ⟨"cus_1", "e@x", ""⟩ ⟨"pm_1", "", false⟩).1.1
      = (Stripe.Subscribe testStoreOps
        ⟨Except.ok ⟨"pm_1", "", false⟩, Except.ok ⟨"cus_1", "e@x", ""⟩,
          Except.error (Err.api "unused"), Except.error (Err.api "unused")⟩ 0
        ⟨[], [], [("cus_1", [⟨"pm_1", "cus_1", true⟩])],
          [("cus_1", ⟨"sub_1", "cus_1", "active", 0, 100, none⟩)]⟩
        ⟨"cus_1", "e@x", ""⟩ ⟨"pm_1", "", false⟩).1.1 :=
  subscribe_idempotent_short_circuit testStoreOps
    ⟨Except.ok ⟨"pm_1", "", false⟩, Except.ok ⟨"cus_1", "e@x", ""⟩,
      Except.error (Err.api "unused"), Except.error (Err.api "unused")⟩
    ⟨Except.ok ⟨"pm_1", "", false⟩, Except.ok ⟨"cus_1", "e@x", ""⟩,
      Except.error (Err.api "unused"), Except.error (Err.api "unused")⟩
    0 0
    ⟨[], [], [], [("cus_1", ⟨"sub_1", "cus_1", "active", 0, 100, none⟩)]⟩
    ⟨[], [], [("cus_1", [⟨"pm_1", "cus_1", true⟩])],
      [("cus_1", ⟨"sub_1", "cus_1", "active", 0, 100, none⟩)]⟩
    ⟨[], [], [("cus_1", [⟨"pm_1", "cus_1", true⟩, ⟨"pm_1", "cus_1", true⟩])],
      [("cus_1", ⟨"sub_1", "cus_1", "active", 0, 100, none⟩)]⟩
    ⟨"cus_1", "e@x", ""⟩ ⟨"cus_1", "e@x", ""⟩
    ⟨"pm_1", "", false⟩ ⟨"pm_1", "", false⟩
    ⟨"sub_1", "cus_1", "active", 0, 100, none⟩
    ⟨"pm_1", "", false⟩ ⟨"pm_1", "", false⟩
    ⟨"cus_1", "e@x", ""⟩ ⟨"cus_1", "e@x", ""⟩
    (by decide) (by decide) rfl rfl (by decide) (by decide) (by decide) rfl rfl (by decide)

/-- Claim C2: the payment outcome of a fresh subscription creation.  When
no valid stored subscription short-circuits the flow and the remote
creation succeeds, `Subscribe` inspects the latest invoice's
payment-intent status: a status in `piUsableStatuses` ("processing" or
"succeeded") persists the subscription and then its latest invoice and
returns success; any other status returns `ErrPaymentIntent` carrying
exactly the latest invoice's id and the observed status, with the store
left as it was after the payment-method write — no subscription or
invoice write occurs. -/
theorem subscribe_payment_outcome {σ : Type} (ops : StoreOps σ) (env : RemoteEnv)
    (now : Int) (st0 st1 st2 st3 : σ) (c : Customer) (pm : PaymentMethod)
    (sub? : Option Subscription) (ok : Bool) (apm : PaymentMethod) (uc : Customer)
    (subC : Subscription) (inv : Invoice)
    (h1 : ops.subscription st0 c = (sub?, ok, none))
    (hnv : (ok && Subscription.validOpt now sub?) = false)
    (ha : env.attachResp = Except.ok apm)
    (hu : env.updateResp = Except.ok uc)
    (hc : env.createResp = Except.ok (subC, inv))
    (hput : ops.put st0 (Resource.paymentMethod { pm with customerId := uc.id, default := true })
        = (st1, none))
    (hput2 : ops.put st1 (Resource.subscription subC) = (st2, none))
    (hput3 : ops.put st2 (Resource.invoice inv) = (st3, none)) :
    (Stripe.Subscribe ops env now st0 c pm
        = if piUsableStatuses.contains inv.paymentIntentStatus then
            ((some subC, none), st3,
              [Eff.attachCall, Eff.updateCall,
                Eff.putPaymentMethod { pm with customerId := uc.id, default := true },
                Eff.createCall, Eff.putSubscription subC, Eff.putInvoice inv])
          else
            ((some subC, some (Err.paymentIntent inv.id inv.paymentIntentStatus)), st1,
              [Eff.attachCall, Eff.updateCall,
                Eff.putPaymentMethod { pm with customerId := uc.id, default := true },
                Eff.createCall]))
    ∧ (piUsableStatuses.contains inv.paymentIntentStatus = false →
        ∀ s i, Eff.putSubscription s ∉ (Stripe.Subscribe ops env now st0 c pm).2.2
          ∧ Eff.putInvoice i ∉ (Stripe.Subscribe ops env now st0 c pm).2.2) := by
  have heq : Stripe.Subscribe ops env now st0 c pm
      = if piUsableStatuses.contains inv.paymentIntentStatus then
          ((some subC, none), st3,
            [Eff.attachCall, Eff.updateCall,
              Eff.putPaymentMethod { pm with customerId := uc.id, default := true },
              Eff.createCall, Eff.putSubscription subC, Eff.putInvoice inv])
        else
          ((some subC, some (Err.paymentIntent inv.id inv.paymentIntentStatus)), st1,
            [Eff.attachCall, Eff.updateCall,
              Eff.putPaymentMethod { pm with customerId := uc.id, default := true },
              Eff.createCall]) := by
    unfold Stripe.Subscribe
    rw [h1]
    simp only [PaymentMethod.Attach, Customer.Update, ha, hu]
    rw [hput]
    simp only [hnv, Bool.false_eq_true, if_false, hc]
    by_cases hpi : piUsableStatuses.contains inv.paymentIntentStatus
    · rw [if_pos hpi, if_pos hpi, hput2]
      dsimp only
      simp only [hput3]
    · rw [if_neg hpi, if_neg hpi]
  refine ⟨heq, fun hpi s i => ?_⟩
  rw [heq, if_neg (by rw [hpi]; exact Bool.false_ne_true)]
  simp

/-- Witness for C2 on the failing branch: a fresh creation whose payment
intent ends in `requires_payment_method`; `Subscribe` reports
`ErrPaymentIntent` with the invoice id and that status, and the store
keeps only the payment-method write. -/
theorem subscribe_payment_outcome_witness :
    (Stripe.Subscribe testStoreOps
        ⟨Except.ok ⟨"pm_1", "", false⟩, Except.ok ⟨"cus_1", "e@x", ""⟩,
          Except.ok (⟨"sub_1", "cus_1", "incomplete", 0, 100, none⟩,
            ⟨"in_1", "cus_1", "0001", 2000, "open", "requires_payment_method"⟩),
          Except.error (Err.api "unused")⟩ 0
        ⟨[], [], [], []⟩ ⟨"cus_1", "e@x", ""⟩ ⟨"pm_1", "", false⟩
        = if piUsableStatuses.contains "requires_payment_method" then
            ((some ⟨"sub_1", "cus_1", "incomplete", 0, 100, none⟩, none),
              ⟨[], [("cus_1", [⟨"in_1", "cus_1", "0001", 2000, "open", "requires_payment_method"⟩])],
                [("cus_1", [⟨"pm_1", "cus_1", true⟩])],
                [("cus_1", ⟨"sub_1", "cus_1", "incomplete", 0, 100, none⟩)]⟩,
              [Eff.attachCall, Eff.updateCall, Eff.putPaymentMethod ⟨"pm_1", "cus_1", true⟩,
                Eff.createCall,
                Eff.putSubscription ⟨"sub_1", "cus_1", "incomplete", 0, 100, none⟩,
                Eff.putInvoice ⟨"in_1", "cus_1", "0001", 2000, "open", "requires_payment_method"⟩])
          else
            ((some ⟨"sub_1", "cus_1", "incomplete", 0, 100, none⟩,
                some (Err.paymentIntent "in_1" "requires_payment_method")),
              ⟨[], [], [("cus_1", [⟨"pm_1", "cus_1", true⟩])], []⟩,
              [Eff.attachCall, Eff.updateCall, Eff.putPaymentMethod ⟨"pm_1", "cus_1", true⟩,
                Eff.createCall]))
    ∧ (piUsableStatuses.contains "requires_payment_method" = false →
        ∀ s i,
          Eff.putSubscription s ∉ (Stripe.Subscribe testStoreOps
            ⟨Except.ok ⟨"pm_1", "", false⟩, Except.ok ⟨"cus_1", "e@x", ""⟩,
              Except.ok (⟨"sub_1", "cus_1", "incomplete", 0, 100, none⟩,
                ⟨"in_1", "cus_1", "0001", 2000, "open", "requires_payment_method"⟩),
              Except.error (Err.api "unused")⟩ 0
            ⟨[], [], [], []⟩ ⟨"cus_1", "e@x", ""⟩ ⟨"pm_1", "", false⟩).2.2
          ∧ Eff.putInvoice i ∉ (Stripe.Subscribe testStoreOps
            ⟨Except.ok ⟨"pm_1", "", false⟩, Except.ok ⟨"cus_1", "e@x", ""⟩,
              Except.ok (⟨"sub_1", "cus_1", "incomplete", 0, 100, none⟩,
                ⟨"in_1", "cus_1", "0001", 2000, "open", "requires_payment_method"⟩),
              Except.error (Err.api "unused")⟩ 0
            ⟨[], [], [], []⟩ ⟨"cus_1", "e@x", ""⟩ ⟨"pm_1", "", false⟩).2.2) :=
  subscribe_payment_outcome testStoreOps
    ⟨Except.ok ⟨"pm_1", "", false⟩, Except.ok ⟨"cus_1", "e@x", ""⟩,
      Except.ok (⟨"sub_1", "cus_1", "incomplete", 0, 100, none⟩,
        ⟨"in_1", "cus_1", "0001", 2000, "open", "requires_payment_method"⟩),
      Except.error (Err.api "unused")⟩ 0
    ⟨[], [], [], []⟩
    ⟨[], [], [("cus_1", [⟨"pm_1", "cus_1", true⟩])], []⟩
    ⟨[], [], [("cus_1", [⟨"pm_1", "cus_1", true⟩])],
      [("cus_1", ⟨"sub_1", "cus_1", "incomplete", 0, 100, none⟩)]⟩
    ⟨[], [("cus_1", [⟨"in_1", "cus_1", "0001", 2000, "open", "requires_payment_method"⟩])],
      [("cus_1", [⟨"pm_1", "cus_1", true⟩])],
      [("cus_1", ⟨"sub_1", "cus_1", "incomplete", 0, 100, none⟩)]⟩
    ⟨"cus_1", "e@x", ""⟩ ⟨"pm_1", "", false⟩
    none false ⟨"pm_1", "", false⟩ ⟨"cus_1", "e@x", ""⟩
    ⟨"sub_1", "cus_1", "incomplete", 0, 100, none⟩
    ⟨"in_1", "cus_1", "0001", 2000, "open", "requires_payment_method"⟩
    (by decide) (by decide) rfl rfl rfl (by decide) (by decide) (by decide)

/-- Claim C7: the Unsubscribe no-op cases.  Whenever the store lookup
succeeds but the cancel path is not taken — no subscription exists, the
stored one is not `Valid`, or a cancellation is already scheduled
(`EndsAt` set, the grace period) — `Unsubscribe` performs no remote call
and no store write: the state is returned unchanged and the effect trace
is empty.  In the grace-period case the stored subscription itself is
returned, in the other cases `nil`; repeated calls therefore never
re-schedule a cancellation. -/
theorem unsubscribe_noop_cases {σ : Type} (ops : StoreOps σ) (env : RemoteEnv)
    (now : Int) (st0 : σ) (c : Customer) (sub? : Option Subscription) (ok : Bool)
    (h1 : ops.subscription st0 c = (sub?, ok, none))
    (hno : ok = false ∨ Subscription.validOpt now sub? = false
        ∨ ∃ sub t, sub? = some sub ∧ sub.endsAt = some t) :
    Stripe.Unsubscribe ops env now st0 c
      = ((if ok && Subscription.validOpt now sub? then sub? else none, none), st0, []) := by
  unfold Stripe.Unsubscribe
  rw [h1]
  rcases hno with h | h | ⟨sub, t, hs, ht⟩
  · subst h
    simp
  · cases ok
    · simp
    · cases sub? with
      | none => simp [Subscription.validOpt] at h ⊢
      | some sub => simp [Subscription.validOpt] at h ⊢; simp [h]
  · subst hs
    cases ok
    · simp
    · cases hvb : sub.Valid now
      · simp [Subscription.validOpt, hvb]
      · simp [Subscription.validOpt, hvb, ht]

/-- Witness for C7: a customer in the grace period (cancellation scheduled
at 100, current time 0); `Unsubscribe` returns the stored subscription,
no effects, store unchanged. -/
theorem unsubscribe_noop_cases_witness :
    Stripe.Unsubscribe testStoreOps
        ⟨Except.error (Err.api "unused"), Except.error (Err.api "unused"),
          Except.error (Err.api "unused"), Except.error (Err.api "unused")⟩ 0
        ⟨[], [], [], [("cus_1", ⟨"sub_1", "cus_1", "active", 0, 100, some 100⟩)]⟩
        ⟨"cus_1", "e@x", ""⟩
      = ((if true && Subscription.validOpt 0 (some ⟨"sub_1", "cus_1", "active", 0, 100, some 100⟩)
            then some ⟨"sub_1", "cus_1", "active", 0, 100, some 100⟩ else none, none),
          ⟨[], [], [], [("cus_1", ⟨"sub_1", "cus_1", "active", 0, 100, some 100⟩)]⟩, []) :=
  unsubscribe_noop_cases testStoreOps
    ⟨Except.error (Err.api "unused"), Except.error (Err.api "unused"),
      Except.error (Err.api "unused"), Except.error (Err.api "unused")⟩ 0
    ⟨[], [], [], [("cus_1", ⟨"sub_1", "cus_1", "active", 0, 100, some 100⟩)]⟩
    ⟨"cus_1", "e@x", ""⟩
    (some ⟨"sub_1", "cus_1", "active", 0, 100, some 100⟩) true
    (by decide)
    (Or.inr (Or.inr ⟨⟨"sub_1", "cus_1", "active", 0, 100, some 100⟩, 100, rfl, rfl⟩))

/-- Claim C10: `PaymentMethod.Attach` and `PaymentMethod.Update` do not
mutate their receiver.  Both post to Stripe and assign the decoded
response only to the local variable `pm`, never through the receiver
pointer, so the caller's value is unchanged after any call, successful or
not.  (This is why `Subscribe` itself sets `Customer` and `Default` on the
payment method before persisting it: the `Eff.putPaymentMethod` payload in
`subscribe_idempotent_short_circuit` and `subscribe_payment_outcome` is
`{ pm with customerId := uc.id, default := true }`, assembled by
`Subscribe`, not by `Attach`.) -/
theorem paymentmethod_attach_update_receiver_unchanged
    (resp resp2 : Except Err PaymentMethod) (pm : PaymentMethod) :
    (PaymentMethod.Attach resp pm).1 = pm ∧ (PaymentMethod.Update resp2 pm).1 = pm := by
  constructor
  · cases resp <;> rfl
  · cases resp2 <;> rfl

/-! ## The default-payment-method invariant (claim C3)

`PSQL.putPaymentMethod` preserves the invariant: clearing first and
inserting at most one default row keeps every customer at one default row
at most.  `TestStore.Put` does not: it appends the incoming payment method
without clearing the previous default, contradicting the documented
contract of `Store.Put` in `stripe.go` ("a check should be done to ensure
that only one PaymentMethod for a Customer is the default"). -/

theorem psql_put_clears_defaults (table : List PMRow) (pm : PaymentMethod) :
    PMRow.defaultCount
      (table.map (fun r => if r.customerId = pm.customerId then { r with isDefault := false } else r))
      pm.customerId = 0 := by
  unfold PMRow.defaultCount
  rw [List.countP_eq_zero]
  intro r hr
  rw [List.mem_map] at hr
  obtain ⟨r0, _, hmap⟩ := hr
  by_cases hc : r0.customerId = pm.customerId
  · rw [if_pos hc] at hmap
    subst hmap
    simp
  · rw [if_neg hc] at hmap
    subst hmap
    simp [hc]

theorem psql_clear_other_count (table : List PMRow) (pm : PaymentMethod) (cid : String)
    (hc : cid ≠ pm.customerId) :
    PMRow.defaultCount
      (table.map (fun r => if r.customerId = pm.customerId then { r with isDefault := false } else r))
      cid = PMRow.defaultCount table cid := by
  unfold PMRow.defaultCount
  induction table with
  | nil => rfl
  | cons r rest ih =>
    simp only [List.map, List.countP_cons]
    rw [ih]
    congr 1
    by_cases hrc : r.customerId = pm.customerId
    · rw [if_pos hrc]
      have hne : ¬(pm.customerId = cid) := fun hh => hc hh.symm
      simp [hrc, hne]
    · rw [if_neg hrc]

theorem psql_put_preserves_default_invariant (table : List PMRow) (pm : PaymentMethod)
    (cid : String) (h : PMRow.defaultCount table cid ≤ 1) :
    PMRow.defaultCount (PSQL.putPaymentMethod table pm) cid ≤ 1 := by
  unfold PSQL.putPaymentMethod
  by_cases hd : pm.default
  · rw [if_pos hd]
    set t1 := table.map
      (fun r => if r.customerId = pm.customerId then { r with isDefault := false } else r) with ht1
    have hcount : PMRow.defaultCount t1 cid ≤ 1 := by
      by_cases hc : cid = pm.customerId
      · subst hc
        rw [ht1, psql_put_clears_defaults table pm]
        omega
      · rw [ht1, psql_clear_other_count table pm cid hc]
        exact h
    by_cases hins : (t1.filter (fun r => r.id = pm.id)).isEmpty
    · rw [if_pos hins]
      unfold PMRow.defaultCount at hcount ⊢
      rw [List.countP_append]
      by_cases hc : cid = pm.customerId
      · subst hc
        have h0 := psql_put_clears_defaults table pm
        unfold PMRow.defaultCount at h0
        rw [← ht1] at h0
        rw [h0]
        simp only [List.countP_cons, List.countP_nil, decide_eq_true_eq]
        split
        · omega
        · omega
      · have hne : pm.customerId ≠ cid := fun hh => hc hh.symm
        have hrow : (decide (pm.customerId = cid) && pm.default) = false := by
          simp [hne]
        simp only [List.countP_cons, List.countP_nil, hrow, if_false, Bool.false_eq_true]
        omega
    · rw [if_neg hins]
      exact hcount
  · rw [if_neg hd]
    have hz : pm.default = false := by
      revert hd
      cases pm.default <;> simp
    by_cases hins : (table.filter (fun r => r.id = pm.id)).isEmpty
    · rw [if_pos hins]
      unfold PMRow.defaultCount at h ⊢
      rw [List.countP_append]
      simp only [List.countP_cons, List.countP_nil, hz, Bool.and_false, if_false, Bool.false_eq_true]
      omega
    · rw [if_neg hins]
      exact h

theorem psql_put_new_default_exactly_one (table : List PMRow) (pm : PaymentMethod)
    (hd : pm.default = true) (hfresh : ∀ r ∈ table, r.id ≠ pm.id) :
    PMRow.defaultCount (PSQL.putPaymentMethod table pm) pm.customerId = 1 := by
  unfold PSQL.putPaymentMethod
  rw [if_pos hd]
  set t1 := table.map
    (fun r => if r.customerId = pm.customerId then { r with isDefault := false } else r) with ht1
  have hins : (t1.filter (fun r => r.id = pm.id)).isEmpty = true := by
    rw [List.isEmpty_iff, List.filter_eq_nil_iff]
    intro r hr
    rw [ht1, List.mem_map] at hr
    obtain ⟨r0, hr0, hmap⟩ := hr
    have hid : r.id = r0.id := by
      by_cases hc : r0.customerId = pm.customerId
      · rw [if_pos hc] at hmap
        subst hmap
        rfl
      · rw [if_neg hc] at hmap
        subst hmap
        rfl
    simp [hid, hfresh r0 hr0]
  rw [if_pos hins]
  unfold PMRow.defaultCount
  rw [List.countP_append]
  have h0 := psql_put_clears_defaults table pm
  unfold PMRow.defaultCount at h0
  rw [← ht1] at h0
  rw [h0]
  simp [List.countP_cons, hd]

/-- Claim C3 evaluated at the failing input (the code bug): a `TestStore`
already holding a default payment method for customer `cus_1` receives a
`Put` of a second payment method with `default = true` for the same
customer; afterwards two of that customer's payment methods carry
`default = true`, because `TestStore.Put` appends without clearing the
previous default, contrary to the `Store.Put` contract that
`PSQL.putPaymentMethod` honours (`psql_put_preserves_default_invariant`,
`psql_put_new_default_exactly_one`). -/
theorem teststore_put_two_defaults :
    TestStore.countDefaults
      ((newTestStore.Put (Resource.paymentMethod ⟨"pm_1", "cus_1", true⟩)).Put
        (Resource.paymentMethod ⟨"pm_2", "cus_1", true⟩)) "cus_1" = 2 := by
  decide

/-! ## The loader (claim C4) -/

theorem load_tax_rate_failure_isolated (fetch : String → Except String TaxRateData)
    (t : TaxesState) (id e : String) (hf : fetch id = Except.error e) :
    Taxes.loadTaxRate fetch t id = (t, 1) := by
  unfold Taxes.loadTaxRate
  rw [hf]

/-- Claim C4 evaluated at the failing input (the code bug): reloading the
single id `tr_a` whose fetch fails.  The error handler fires exactly once
(the count 1), as the claim states; but the merged table does not have
`N − K = 0` entries: `Taxes.Reload` in `tax.go` merges every
pre-constructed rate, the failed ones included, so the placeholder
`TaxRate` with only its id set is inserted under the empty jurisdiction.
(The per-id loader `Taxes.loadTaxRate` of the alternative implementation
inserts nothing on failure: `load_tax_rate_failure_isolated`.) -/
theorem taxes_reload_merges_failed_placeholder :
    Taxes.Reload (fun _ => Except.error "boom") ["tr_a"] ⟨[], []⟩
        = (⟨["tr_a"], [("", ⟨"tr_a", ""⟩)]⟩, 1)
    ∧ (Taxes.Reload (fun _ => Except.error "boom") ["tr_a"] ⟨[], []⟩).1.rates.length ≠ 0 := by
  constructor
  · decide
  · decide

/-! ## The webhook dispatcher (claims C5 and C9) -/

/-- Claim C5: webhook deduplication through a store implementing
`LogEvent`.  Delivering a verified event twice to a dispatcher backed by
the `PSQL.LogEvent` model invokes the registered handler exactly once: the
first delivery dispatches, the second answers the accepted-duplicate
outcome (HTTP 202) whatever handlers are registered — the dedup
short-circuits before any handler lookup.  And with any store whose
`LogEvent` fails with something other than the duplicate condition, the
request aborts with the store-failure outcome (HTTP 500) and no handler
invocation. -/
theorem hook_dedup_single_dispatch (events0 : List String) (ev : Event)
    (handlers : String → Bool)
    (hreg : handlers ev.type = true)
    (hfresh : events0.contains ev.id = false) :
    (HookHandler.HandlerFunc (List String) PSQL.LogEvent handlers true (Except.ok ev)
        (some events0)).1 = HookOutcome.dispatched ev
    ∧ (∀ handlers2 : String → Bool,
        (HookHandler.HandlerFunc (List String) PSQL.LogEvent handlers2 true (Except.ok ev)
          (HookHandler.HandlerFunc (List String) PSQL.LogEvent handlers true (Except.ok ev)
            (some events0)).2).1 = HookOutcome.duplicate)
    ∧ HookOutcome.invoked
        (HookHandler.HandlerFunc (List String) PSQL.LogEvent handlers true (Except.ok ev)
          (some events0)).1 = true
    ∧ HookOutcome.invoked
        (HookHandler.HandlerFunc (List String) PSQL.LogEvent handlers true (Except.ok ev)
          (HookHandler.HandlerFunc (List String) PSQL.LogEvent handlers true (Except.ok ev)
            (some events0)).2).1 = false
    ∧ (∀ (σ : Type) (logE : σ → String → σ × Option LogErr) (st st1 : σ),
        logE st ev.id = (st1, some LogErr.failure) →
        HookHandler.HandlerFunc σ logE handlers true (Except.ok ev) (some st)
          = (HookOutcome.storeFailure, some st1)) := by
  have h1 : HookHandler.HandlerFunc (List String) PSQL.LogEvent handlers true (Except.ok ev)
      (some events0) = (HookOutcome.dispatched ev, some (events0 ++ [ev.id])) := by
    have hnot : ¬ ev.id ∈ events0 := by simpa using hfresh
    unfold HookHandler.HandlerFunc PSQL.LogEvent
    simp [hnot, hreg]
  have hmem : (events0 ++ [ev.id]).contains ev.id = true := by
    simp
  have h2 : ∀ handlers2 : String → Bool,
      HookHandler.HandlerFunc (List String) PSQL.LogEvent handlers2 true (Except.ok ev)
        (some (events0 ++ [ev.id])) = (HookOutcome.duplicate, some (events0 ++ [ev.id])) := by
    intro handlers2
    unfold HookHandler.HandlerFunc PSQL.LogEvent
    simp [hmem]
  refine ⟨by rw [h1], fun handlers2 => ?_, by rw [h1]; rfl, ?_, fun σ logE st st1 hf => ?_⟩
  · rw [h1]
    rw [h2 handlers2]
  · rw [h1, h2 handlers]
    rfl
  · unfold HookHandler.HandlerFunc
    simp [hf]

/-- Claim C9: with a nil store the dispatcher performs no deduplication at
all.  A verified delivery with a registered handler always dispatches —
repeating the same event id dispatches again — and the accepted-duplicate
(202) outcome is impossible whatever the request looks like. -/
theorem hook_nil_store_no_dedup (σ : Type) (logE : σ → String → σ × Option LogErr)
    (handlers : String → Bool) (ev : Event) (hreg : handlers ev.type = true) :
    HookHandler.HandlerFunc σ logE handlers true (Except.ok ev) none
        = (HookOutcome.dispatched ev, none)
    ∧ (∀ (readOk : Bool) (verified : Except Unit Event) (handlers2 : String → Bool),
        (HookHandler.HandlerFunc σ logE handlers2 readOk verified none).1
          ≠ HookOutcome.duplicate) := by
  constructor
  · unfold HookHandler.HandlerFunc
    simp [hreg]
  · intro readOk verified handlers2
    unfold HookHandler.HandlerFunc
    cases readOk
    · simp
    · cases verified with
      | error e => simp
      | ok ev2 =>
        by_cases hh : handlers2 ev2.type = true
        · simp [hh]
        · simp [hh]

/-- Witness for C5: event `evt_1` of type `invoice.paid` delivered twice
to a dispatcher with an empty event log and a handler registered for that
type. -/
theorem hook_dedup_single_dispatch_witness :
    (HookHandler.HandlerFunc (List String) PSQL.LogEvent (fun t => t == "invoice.paid") true
        (Except.ok ⟨"evt_1", "invoice.paid"⟩) (some [])).1
        = HookOutcome.dispatched ⟨"evt_1", "invoice.paid"⟩
    ∧ (∀ handlers2 : String → Bool,
        (HookHandler.HandlerFunc (List String) PSQL.LogEvent handlers2 true
          (Except.ok ⟨"evt_1", "invoice.paid"⟩)
          (HookHandler.HandlerFunc (List String) PSQL.LogEvent (fun t => t == "invoice.paid") true
            (Except.ok ⟨"evt_1", "invoice.paid"⟩) (some [])).2).1 = HookOutcome.duplicate)
    ∧ HookOutcome.invoked
        (HookHandler.HandlerFunc (List String) PSQL.LogEvent (fun t => t == "invoice.paid") true
          (Except.ok ⟨"evt_1", "invoice.paid"⟩) (some [])).1 = true
    ∧ HookOutcome.invoked
        (HookHandler.HandlerFunc (List String) PSQL.LogEvent (fun t => t == "invoice.paid") true
          (Except.ok ⟨"evt_1", "invoice.paid"⟩)
          (HookHandler.HandlerFunc (List String) PSQL.LogEvent (fun t => t == "invoice.paid") true
            (Except.ok ⟨"evt_1", "invoice.paid"⟩) (some [])).2).1 = false
    ∧ (∀ (σ : Type) (logE : σ → String → σ × Option LogErr) (st st1 : σ),
        logE st "evt_1" = (st1, some LogErr.failure) →
        HookHandler.HandlerFunc σ logE (fun t => t == "invoice.paid") true
          (Except.ok ⟨"evt_1", "invoice.paid"⟩) (some st)
          = (HookOutcome.storeFailure, some st1)) :=
  hook_dedup_single_dispatch [] ⟨"evt_1", "invoice.paid"⟩ (fun t => t == "invoice.paid")
    (by decide) (by decide)

/-- Witness for C9: the same event delivered to a dispatcher constructed
with a nil store. -/
theorem hook_nil_store_no_dedup_witness :
    HookHandler.HandlerFunc (List String) PSQL.LogEvent (fun t => t == "invoice.paid") true
        (Except.ok ⟨"evt_1", "invoice.paid"⟩) none
        = (HookOutcome.dispatched ⟨"evt_1", "invoice.paid"⟩, none)
    ∧ (∀ (readOk : Bool) (verified : Except Unit Event) (handlers2 : String → Bool),
        (HookHandler.HandlerFunc (List String) PSQL.LogEvent handlers2 readOk verified none).1
          ≠ HookOutcome.duplicate) :=
  hook_nil_store_no_dedup (List String) PSQL.LogEvent (fun t => t == "invoice.paid")
    ⟨"evt_1", "invoice.paid"⟩ (by decide)

/-- The four encodings checked by the repository's own `Test_Params` test,
reproduced by the model. -/
theorem params_encode_matches_source_tests :
    Params.Encode [("email", Value.str "me@example.com")] = "email=me%40example.com"
    ∧ Params.Encode
        [("invoice_settings", Value.params [("default_payment_method", Value.str "pm_123456")])]
        = "invoice_settings[default_payment_method]=pm_123456"
    ∧ Params.Encode
        [("customer", Value.str "cu_123456"),
          ("items", Value.slice [Value.params [("price", Value.str "pr_123456")]]),
          ("expand", Value.slice [Value.str "latest_invoice.payment_intent"])]
        = "customer=cu_123456&expand[0]=latest_invoice.payment_intent&items[0][price]=pr_123456"
    ∧ Params.Encode
        [("amount", Value.int 2000), ("currency", Value.str "gbp"),
          ("payment_method_types", Value.slice [Value.str "card"])]
        = "amount=2000&currency=gbp&payment_method_types[0]=card" := by
  refine ⟨?_, ?_, ?_, ?_⟩ <;>
    · simp only [Params.Encode, encodeToPairs, encodeEntry, encodeSliceToPairs, encodeElem,
        pair.encode, sprintf, List.map]
      decide
